import Mathlib

/-!
Verification of the tool-dispatch layer of the repository
(`backend/app/mcp_tools.py` and `backend/app/research_tools.py`):
a shallow embedding of the tool registry, the `[TOOL:...]` call-syntax
parser, and the research client, together with theorems about the
claims of the specification.

Conventions of the embedding:
* Python strings are Lean `String` / `List Char`.
* Python dicts with a fixed key set are Lean structures; optional keys
  (`dict.get`) are `Option` fields.
* Python exceptions that the code catches are explicit `Except` /
  `Option` values.
* Clock time (`datetime.now()`) is an explicit `now : Int` parameter;
  `datetime` values distinguish naive from timezone-aware values, since
  comparing an aware value with a naive one raises `TypeError` in Python.
* The outcome of an HTTP POST is an explicit oracle parameter: `none`
  models a raised connection error, `some r` a response.
-/

namespace GraphStos

/-- The apostrophe character, used in several of the source's messages. -/
def apos : String := ⟨[Char.ofNat 39]⟩

/-- `listStarts needle hay` is true iff `needle` is an initial segment of
`hay` (model of Python's `str.startswith` on character lists). -/
def listStarts : List Char → List Char → Bool
  | [], _ => true
  | _ :: _, [] => false
  | a :: as, b :: bs => a == b && listStarts as bs

/-- Model of Python's `s.split(sep)` for a one-character separator:
`"".split` gives `[""]`, separators at the ends give empty pieces. -/
def splitOnChar (sep : Char) : List Char → List (List Char)
  | [] => [[]]
  | c :: cs =>
    let r := splitOnChar sep cs
    if c == sep then [] :: r
    else
      match r with
      | [] => [[c]]
      | h :: t => (c :: h) :: t

/-- Model of Python's `s.split(sep, 1)` for a one-character separator:
the part before the first separator, and the remainder if a separator
occurs. -/
def splitFirstChar (sep : Char) : List Char → List Char × Option (List Char)
  | [] => ([], none)
  | c :: cs =>
    if c == sep then ([], some cs)
    else
      let r := splitFirstChar sep cs
      (c :: r.1, r.2)

/-- Python `str.isspace()`: the exact codepoint set of CPython's
`Py_UNICODE_ISSPACE` (tab through CR, FS/GS/RS/US, space, NEL, NBSP,
and the Unicode space/line/paragraph separators; generated from
CPython 3.11's Unicode database). -/
def pyIsSpace (c : Char) : Bool :=
  (9 ≤ c.toNat && c.toNat ≤ 13) || (28 ≤ c.toNat && c.toNat ≤ 32)
    || c.toNat == 133 || c.toNat == 160 || c.toNat == 5760
    || (8192 ≤ c.toNat && c.toNat ≤ 8202) || c.toNat == 8232
    || c.toNat == 8233 || c.toNat == 8239 || c.toNat == 8287
    || c.toNat == 12288

/-- Python `str.isalnum()` on the ASCII plane: digits and letters. -/
def pyAlnumAscii (n : Nat) : Bool :=
  (48 ≤ n && n ≤ 57) || (65 ≤ n && n ≤ 90) || (97 ≤ n && n ≤ 122)

/-- The non-ASCII codepoint ranges (inclusive) on which Python
`str.isalnum()` is true, generated from CPython 3.11's Unicode
database. -/
def pyAlnumRangesHigh : List (Nat × Nat) := [
  (170, 170), (178, 179), (181, 181), (185, 186), (188, 190), (192, 214),
  (216, 246), (248, 705), (710, 721), (736, 740), (748, 748), (750, 750),
  (880, 884), (886, 887), (890, 893), (895, 895), (902, 902), (904, 906),
  (908, 908), (910, 929), (931, 1013), (1015, 1153), (1162, 1327), (1329, 1366),
  (1369, 1369), (1376, 1416), (1488, 1514), (1519, 1522), (1568, 1610), (1632, 1641),
  (1646, 1647), (1649, 1747), (1749, 1749), (1765, 1766), (1774, 1788), (1791, 1791),
  (1808, 1808), (1810, 1839), (1869, 1957), (1969, 1969), (1984, 2026), (2036, 2037),
  (2042, 2042), (2048, 2069), (2074, 2074), (2084, 2084), (2088, 2088), (2112, 2136),
  (2144, 2154), (2160, 2183), (2185, 2190), (2208, 2249), (2308, 2361), (2365, 2365),
  (2384, 2384), (2392, 2401), (2406, 2415), (2417, 2432), (2437, 2444), (2447, 2448),
  (2451, 2472), (2474, 2480), (2482, 2482), (2486, 2489), (2493, 2493), (2510, 2510),
  (2524, 2525), (2527, 2529), (2534, 2545), (2548, 2553), (2556, 2556), (2565, 2570),
  (2575, 2576), (2579, 2600), (2602, 2608), (2610, 2611), (2613, 2614), (2616, 2617),
  (2649, 2652), (2654, 2654), (2662, 2671), (2674, 2676), (2693, 2701), (2703, 2705),
  (2707, 2728), (2730, 2736), (2738, 2739), (2741, 2745), (2749, 2749), (2768, 2768),
  (2784, 2785), (2790, 2799), (2809, 2809), (2821, 2828), (2831, 2832), (2835, 2856),
  (2858, 2864), (2866, 2867), (2869, 2873), (2877, 2877), (2908, 2909), (2911, 2913),
  (2918, 2927), (2929, 2935), (2947, 2947), (2949, 2954), (2958, 2960), (2962, 2965),
  (2969, 2970), (2972, 2972), (2974, 2975), (2979, 2980), (2984, 2986), (2990, 3001),
  (3024, 3024), (3046, 3058), (3077, 3084), (3086, 3088), (3090, 3112), (3114, 3129),
  (3133, 3133), (3160, 3162), (3165, 3165), (3168, 3169), (3174, 3183), (3192, 3198),
  (3200, 3200), (3205, 3212), (3214, 3216), (3218, 3240), (3242, 3251), (3253, 3257),
  (3261, 3261), (3293, 3294), (3296, 3297), (3302, 3311), (3313, 3314), (3332, 3340),
  (3342, 3344), (3346, 3386), (3389, 3389), (3406, 3406), (3412, 3414), (3416, 3425),
  (3430, 3448), (3450, 3455), (3461, 3478), (3482, 3505), (3507, 3515), (3517, 3517),
  (3520, 3526), (3558, 3567), (3585, 3632), (3634, 3635), (3648, 3654), (3664, 3673),
  (3713, 3714), (3716, 3716), (3718, 3722), (3724, 3747), (3749, 3749), (3751, 3760),
  (3762, 3763), (3773, 3773), (3776, 3780), (3782, 3782), (3792, 3801), (3804, 3807),
  (3840, 3840), (3872, 3891), (3904, 3911), (3913, 3948), (3976, 3980), (4096, 4138),
  (4159, 4169), (4176, 4181), (4186, 4189), (4193, 4193), (4197, 4198), (4206, 4208),
  (4213, 4225), (4238, 4238), (4240, 4249), (4256, 4293), (4295, 4295), (4301, 4301),
  (4304, 4346), (4348, 4680), (4682, 4685), (4688, 4694), (4696, 4696), (4698, 4701),
  (4704, 4744), (4746, 4749), (4752, 4784), (4786, 4789), (4792, 4798), (4800, 4800),
  (4802, 4805), (4808, 4822), (4824, 4880), (4882, 4885), (4888, 4954), (4969, 4988),
  (4992, 5007), (5024, 5109), (5112, 5117), (5121, 5740), (5743, 5759), (5761, 5786),
  (5792, 5866), (5870, 5880), (5888, 5905), (5919, 5937), (5952, 5969), (5984, 5996),
  (5998, 6000), (6016, 6067), (6103, 6103), (6108, 6108), (6112, 6121), (6128, 6137),
  (6160, 6169), (6176, 6264), (6272, 6276), (6279, 6312), (6314, 6314), (6320, 6389),
  (6400, 6430), (6470, 6509), (6512, 6516), (6528, 6571), (6576, 6601), (6608, 6618),
  (6656, 6678), (6688, 6740), (6784, 6793), (6800, 6809), (6823, 6823), (6917, 6963),
  (6981, 6988), (6992, 7001), (7043, 7072), (7086, 7141), (7168, 7203), (7232, 7241),
  (7245, 7293), (7296, 7304), (7312, 7354), (7357, 7359), (7401, 7404), (7406, 7411),
  (7413, 7414), (7418, 7418), (7424, 7615), (7680, 7957), (7960, 7965), (7968, 8005),
  (8008, 8013), (8016, 8023), (8025, 8025), (8027, 8027), (8029, 8029), (8031, 8061),
  (8064, 8116), (8118, 8124), (8126, 8126), (8130, 8132), (8134, 8140), (8144, 8147),
  (8150, 8155), (8160, 8172), (8178, 8180), (8182, 8188), (8304, 8305), (8308, 8313),
  (8319, 8329), (8336, 8348), (8450, 8450), (8455, 8455), (8458, 8467), (8469, 8469),
  (8473, 8477), (8484, 8484), (8486, 8486), (8488, 8488), (8490, 8493), (8495, 8505),
  (8508, 8511), (8517, 8521), (8526, 8526), (8528, 8585), (9312, 9371), (9450, 9471),
  (10102, 10131), (11264, 11492), (11499, 11502), (11506, 11507), (11517, 11517), (11520, 11557),
  (11559, 11559), (11565, 11565), (11568, 11623), (11631, 11631), (11648, 11670), (11680, 11686),
  (11688, 11694), (11696, 11702), (11704, 11710), (11712, 11718), (11720, 11726), (11728, 11734),
  (11736, 11742), (11823, 11823), (12293, 12295), (12321, 12329), (12337, 12341), (12344, 12348),
  (12353, 12438), (12445, 12447), (12449, 12538), (12540, 12543), (12549, 12591), (12593, 12686),
  (12690, 12693), (12704, 12735), (12784, 12799), (12832, 12841), (12872, 12879), (12881, 12895),
  (12928, 12937), (12977, 12991), (13312, 19903), (19968, 42124), (42192, 42237), (42240, 42508),
  (42512, 42539), (42560, 42606), (42623, 42653), (42656, 42735), (42775, 42783), (42786, 42888),
  (42891, 42954), (42960, 42961), (42963, 42963), (42965, 42969), (42994, 43009), (43011, 43013),
  (43015, 43018), (43020, 43042), (43056, 43061), (43072, 43123), (43138, 43187), (43216, 43225),
  (43250, 43255), (43259, 43259), (43261, 43262), (43264, 43301), (43312, 43334), (43360, 43388),
  (43396, 43442), (43471, 43481), (43488, 43492), (43494, 43518), (43520, 43560), (43584, 43586),
  (43588, 43595), (43600, 43609), (43616, 43638), (43642, 43642), (43646, 43695), (43697, 43697),
  (43701, 43702), (43705, 43709), (43712, 43712), (43714, 43714), (43739, 43741), (43744, 43754),
  (43762, 43764), (43777, 43782), (43785, 43790), (43793, 43798), (43808, 43814), (43816, 43822),
  (43824, 43866), (43868, 43881), (43888, 44002), (44016, 44025), (44032, 55203), (55216, 55238),
  (55243, 55291), (63744, 64109), (64112, 64217), (64256, 64262), (64275, 64279), (64285, 64285),
  (64287, 64296), (64298, 64310), (64312, 64316), (64318, 64318), (64320, 64321), (64323, 64324),
  (64326, 64433), (64467, 64829), (64848, 64911), (64914, 64967), (65008, 65019), (65136, 65140),
  (65142, 65276), (65296, 65305), (65313, 65338), (65345, 65370), (65382, 65470), (65474, 65479),
  (65482, 65487), (65490, 65495), (65498, 65500), (65536, 65547), (65549, 65574), (65576, 65594),
  (65596, 65597), (65599, 65613), (65616, 65629), (65664, 65786), (65799, 65843), (65856, 65912),
  (65930, 65931), (66176, 66204), (66208, 66256), (66273, 66299), (66304, 66339), (66349, 66378),
  (66384, 66421), (66432, 66461), (66464, 66499), (66504, 66511), (66513, 66517), (66560, 66717),
  (66720, 66729), (66736, 66771), (66776, 66811), (66816, 66855), (66864, 66915), (66928, 66938),
  (66940, 66954), (66956, 66962), (66964, 66965), (66967, 66977), (66979, 66993), (66995, 67001),
  (67003, 67004), (67072, 67382), (67392, 67413), (67424, 67431), (67456, 67461), (67463, 67504),
  (67506, 67514), (67584, 67589), (67592, 67592), (67594, 67637), (67639, 67640), (67644, 67644),
  (67647, 67669), (67672, 67702), (67705, 67742), (67751, 67759), (67808, 67826), (67828, 67829),
  (67835, 67867), (67872, 67897), (67968, 68023), (68028, 68047), (68050, 68096), (68112, 68115),
  (68117, 68119), (68121, 68149), (68160, 68168), (68192, 68222), (68224, 68255), (68288, 68295),
  (68297, 68324), (68331, 68335), (68352, 68405), (68416, 68437), (68440, 68466), (68472, 68497),
  (68521, 68527), (68608, 68680), (68736, 68786), (68800, 68850), (68858, 68899), (68912, 68921),
  (69216, 69246), (69248, 69289), (69296, 69297), (69376, 69415), (69424, 69445), (69457, 69460),
  (69488, 69505), (69552, 69579), (69600, 69622), (69635, 69687), (69714, 69743), (69745, 69746),
  (69749, 69749), (69763, 69807), (69840, 69864), (69872, 69881), (69891, 69926), (69942, 69951),
  (69956, 69956), (69959, 69959), (69968, 70002), (70006, 70006), (70019, 70066), (70081, 70084),
  (70096, 70106), (70108, 70108), (70113, 70132), (70144, 70161), (70163, 70187), (70272, 70278),
  (70280, 70280), (70282, 70285), (70287, 70301), (70303, 70312), (70320, 70366), (70384, 70393),
  (70405, 70412), (70415, 70416), (70419, 70440), (70442, 70448), (70450, 70451), (70453, 70457),
  (70461, 70461), (70480, 70480), (70493, 70497), (70656, 70708), (70727, 70730), (70736, 70745),
  (70751, 70753), (70784, 70831), (70852, 70853), (70855, 70855), (70864, 70873), (71040, 71086),
  (71128, 71131), (71168, 71215), (71236, 71236), (71248, 71257), (71296, 71338), (71352, 71352),
  (71360, 71369), (71424, 71450), (71472, 71483), (71488, 71494), (71680, 71723), (71840, 71922),
  (71935, 71942), (71945, 71945), (71948, 71955), (71957, 71958), (71960, 71983), (71999, 71999),
  (72001, 72001), (72016, 72025), (72096, 72103), (72106, 72144), (72161, 72161), (72163, 72163),
  (72192, 72192), (72203, 72242), (72250, 72250), (72272, 72272), (72284, 72329), (72349, 72349),
  (72368, 72440), (72704, 72712), (72714, 72750), (72768, 72768), (72784, 72812), (72818, 72847),
  (72960, 72966), (72968, 72969), (72971, 73008), (73030, 73030), (73040, 73049), (73056, 73061),
  (73063, 73064), (73066, 73097), (73112, 73112), (73120, 73129), (73440, 73458), (73648, 73648),
  (73664, 73684), (73728, 74649), (74752, 74862), (74880, 75075), (77712, 77808), (77824, 78894),
  (82944, 83526), (92160, 92728), (92736, 92766), (92768, 92777), (92784, 92862), (92864, 92873),
  (92880, 92909), (92928, 92975), (92992, 92995), (93008, 93017), (93019, 93025), (93027, 93047),
  (93053, 93071), (93760, 93846), (93952, 94026), (94032, 94032), (94099, 94111), (94176, 94177),
  (94179, 94179), (94208, 100343), (100352, 101589), (101632, 101640), (110576, 110579), (110581, 110587),
  (110589, 110590), (110592, 110882), (110928, 110930), (110948, 110951), (110960, 111355), (113664, 113770),
  (113776, 113788), (113792, 113800), (113808, 113817), (119520, 119539), (119648, 119672), (119808, 119892),
  (119894, 119964), (119966, 119967), (119970, 119970), (119973, 119974), (119977, 119980), (119982, 119993),
  (119995, 119995), (119997, 120003), (120005, 120069), (120071, 120074), (120077, 120084), (120086, 120092),
  (120094, 120121), (120123, 120126), (120128, 120132), (120134, 120134), (120138, 120144), (120146, 120485),
  (120488, 120512), (120514, 120538), (120540, 120570), (120572, 120596), (120598, 120628), (120630, 120654),
  (120656, 120686), (120688, 120712), (120714, 120744), (120746, 120770), (120772, 120779), (120782, 120831),
  (122624, 122654), (123136, 123180), (123191, 123197), (123200, 123209), (123214, 123214), (123536, 123565),
  (123584, 123627), (123632, 123641), (124896, 124902), (124904, 124907), (124909, 124910), (124912, 124926),
  (124928, 125124), (125127, 125135), (125184, 125251), (125259, 125259), (125264, 125273), (126065, 126123),
  (126125, 126127), (126129, 126132), (126209, 126253), (126255, 126269), (126464, 126467), (126469, 126495),
  (126497, 126498), (126500, 126500), (126503, 126503), (126505, 126514), (126516, 126519), (126521, 126521),
  (126523, 126523), (126530, 126530), (126535, 126535), (126537, 126537), (126539, 126539), (126541, 126543),
  (126545, 126546), (126548, 126548), (126551, 126551), (126553, 126553), (126555, 126555), (126557, 126557),
  (126559, 126559), (126561, 126562), (126564, 126564), (126567, 126570), (126572, 126578), (126580, 126583),
  (126585, 126588), (126590, 126590), (126592, 126601), (126603, 126619), (126625, 126627), (126629, 126633),
  (126635, 126651), (127232, 127244), (130032, 130041), (131072, 173791), (173824, 177976), (177984, 178205),
  (178208, 183969), (183984, 191456), (194560, 195101), (196608, 201546)]

/-- Python `str.isalnum()`: ASCII fast path, table lookup above it. -/
def pyIsAlnum (c : Char) : Bool :=
  if c.toNat < 128 then pyAlnumAscii c.toNat
  else pyAlnumRangesHigh.any (fun p => p.1 ≤ c.toNat && c.toNat ≤ p.2)

/-- Model of Python's `str.strip()`: drop `str.isspace()` characters
from both ends. -/
def stripChars (cs : List Char) : List Char :=
  ((cs.dropWhile pyIsSpace).reverse.dropWhile pyIsSpace).reverse

/-- `str.strip()` on `String`. -/
def pyStrip (s : String) : String := ⟨stripChars s.data⟩

/-! ## Call-syntax parser (`parse_tool_call_from_text`, mcp_tools.py 388-431)

The source scans the text with the regex `\[TOOL:(\w+)\](.*?)\[/TOOL\]`
(DOTALL) via `re.findall`: matches are found left to right, the name is a
non-empty greedy run of word characters, the args segment is the shortest
run (any character, newlines included) up to the next `[/TOOL]`, and
scanning resumes after each match. -/

/-- The Python regex class `\w` for `str` patterns (Unicode): exactly
`c.isalnum() or c == '_'`, which is what CPython's `re` implements
(`SRE_UNI_IS_WORD`), verified to coincide with `\w` on every codepoint. -/
def wordChar (c : Char) : Bool := pyIsAlnum c || c == '_'

/-- The characters of the opening marker `[TOOL:`. -/
def openTag : List Char := '[' :: 'T' :: 'O' :: 'O' :: 'L' :: ':' :: []

/-- The characters of the closing marker `[/TOOL]`. -/
def closeTag : List Char := '[' :: '/' :: 'T' :: 'O' :: 'O' :: 'L' :: ']' :: []

/-- Find the earliest occurrence of `[/TOOL]`: returns the characters
before it and the characters after it (the lazy `(.*?)\[/TOOL\]` part of
the regex). -/
def findClose : List Char → Option (List Char × List Char)
  | [] => none
  | c :: cs =>
    if listStarts closeTag (c :: cs) then some ([], (c :: cs).drop 7)
    else
      match findClose cs with
      | some (a, r) => some (c :: a, r)
      | none => none

/-- Try to match `\[TOOL:(\w+)\](.*?)\[/TOOL\]` at the head of the text:
on success returns ((name, args), rest-after-the-match). -/
def matchAt (cs : List Char) : Option ((List Char × List Char) × List Char) :=
  if listStarts openTag cs then
    let rest := cs.drop 6
    let name := rest.takeWhile wordChar
    let rest2 := rest.dropWhile wordChar
    if name.isEmpty then none
    else if listStarts [']'] rest2 then
      match findClose (rest2.drop 1) with
      | some (args, after) => some ((name, args), after)
      | none => none
    else none
  else none

/-- `re.findall` scan: try a match at every position, left to right,
resuming after the end of each match.  `fuel ≥ length` makes the
recursion structural; `scanFuel_fuel_irrel` below shows the result does
not depend on the fuel. -/
def scanFuel : Nat → List Char → List (List Char × List Char)
  | _, [] => []
  | 0, _ :: _ => []
  | f + 1, c :: cs =>
    match matchAt (c :: cs) with
    | some (m, rest) => m :: scanFuel f rest
    | none => scanFuel f cs

/-- The raw matches of the tool-call regex in a text, in order. -/
def toolMarkers (s : String) : List (List Char × List Char) :=
  scanFuel s.data.length s.data

/-- The tool names whose positional fallback is listed explicitly in the
source (`mcp_tools.py` line 417). -/
def researchFallbackTools : List String :=
  ["web_search", "calculator", "count_words", "tavily_search",
   "tavily_scrape", "tavily_search_scrape", "deep_research"]

/-- Python dict assignment `d[k] = v` on an insertion-ordered
association list: overwrite in place if the key exists, else append. -/
def dictInsert (d : List (String × String)) (k v : String) :
    List (String × String) :=
  if d.any (fun p => p.1 == k) then
    d.map (fun p => if p.1 == k then (k, v) else p)
  else d ++ [(k, v)]

/-- Argument parsing of one match (`mcp_tools.py` 399-424): if the args
segment contains `=`, split on `|` into `key=value` pairs (pieces with
no `=` are skipped, key and value are stripped); otherwise the
positional fallback keyed by the tool name. -/
def parseKwargs (toolName : String) (argsText : List Char) :
    List (String × String) :=
  if argsText.contains '=' then
    (splitOnChar '|' argsText).foldl
      (fun kw piece =>
        if piece.contains '=' then
          let kv := splitFirstChar '=' piece
          dictInsert kw (pyStrip ⟨kv.1⟩) (pyStrip ⟨kv.2.getD []⟩)
        else kw) []
  else
    if toolName == "read_file" then
      [("path", pyStrip ⟨argsText⟩)]
    else if toolName == "write_file" then
      let parts := splitFirstChar '|' argsText
      [("path", pyStrip ⟨parts.1⟩),
       ("content", match parts.2 with
         | some rest => pyStrip ⟨rest⟩
         | none => "")]
    else if researchFallbackTools.contains toolName then
      if toolName == "tavily_scrape" then
        [("url", pyStrip ⟨argsText⟩)]
      else
        [("query", pyStrip ⟨argsText⟩)]
    else
      [("query", pyStrip ⟨argsText⟩)]

/-- `parse_tool_call_from_text`: the ordered list of
`(tool, args)` invocation requests extracted from a text. -/
def parse_tool_call_from_text (text : String) :
    List (String × List (String × String)) :=
  (toolMarkers text).map (fun m => (⟨m.1⟩, parseKwargs ⟨m.1⟩ m.2))

example :
    parse_tool_call_from_text "[TOOL:calculator]2+2[/TOOL]" =
      [("calculator", [("query", "2+2")])] := by decide

example :
    parse_tool_call_from_text "[TOOL:write_file]path=a.txt|content=hi[/TOOL]" =
      [("write_file", [("path", "a.txt"), ("content", "hi")])] := by decide

example : parse_tool_call_from_text "no calls here" = [] := by decide

/-! ## Tool registry (`MCPToolRegistry`, mcp_tools.py 39-73)

A handler is a Python callable invoked with keyword arguments; it either
returns a value (converted with `str`, here already a `String`) or raises
an exception (`Exception` subclass, reduced to its message).  `**kwargs`
is an ordered string-keyed mapping. -/

/-- A raised Python exception (`Exception` subclass), reduced to the
message that `str(e)` yields. -/
structure PyExn where
  msg : String
deriving DecidableEq

/-- One registry entry, the dict
`{"name": name, "description": description, "function": function}`. -/
structure ToolEntry where
  name : String
  description : String
  function : List (String × String) → Except PyExn String

/-- `register_tool`: dict assignment `self.tools[name] = {...}` — keyed
by name, overwrite in place if present, else append (insertion order). -/
def register_tool (reg : List ToolEntry) (t : ToolEntry) : List ToolEntry :=
  if reg.any (fun e => e.name == t.name) then
    reg.map (fun e => if e.name == t.name then t else e)
  else reg ++ [t]

/-- `get_tool`: `self.tools.get(name)`. -/
def get_tool (reg : List ToolEntry) (name : String) : Option ToolEntry :=
  reg.find? (fun e => e.name == name)

/-- The fixed not-found message of `execute_tool`. -/
def toolNotFoundMsg (name : String) : String :=
  "❌ Narzędzie " ++ apos ++ name ++ apos ++ " nie istnieje"

/-- The error string `execute_tool` builds from a caught exception. -/
def toolErrorMsg (name : String) (e : PyExn) : String :=
  "❌ Błąd wykonania narzędzia " ++ apos ++ name ++ apos ++ ": " ++ e.msg

/-- `execute_tool` (mcp_tools.py 63-73): look the tool up; absent name
gives the fixed message; otherwise run the handler, catching every
raised exception and converting it to the formatted error string. -/
def execute_tool (reg : List ToolEntry) (name : String)
    (kwargs : List (String × String)) : String :=
  match get_tool reg name with
  | none => toolNotFoundMsg name
  | some t =>
    match t.function kwargs with
    | .ok r => r
    | .error e => toolErrorMsg name e

/-! ## `_write_file` (mcp_tools.py 193-205)

The handler reads the sandbox directory from the environment
(`os.getenv("MCP_SAFE_DIR", "./mcp_workspace")`, modelled as an
`Option String`), creates it with `os.makedirs` (which raises on the
empty path — caught, giving an error string and *no* write), joins it
with `os.path.basename(path)` and opens exactly that one path for
writing.  The model records the single attempted filesystem write. -/

/-- `os.path.basename` (POSIX): the suffix after the last `/`. -/
def osPathBasename (s : String) : String :=
  ⟨(s.data.reverse.takeWhile (fun c => !(c == '/'))).reverse⟩

/-- Does a string end with the separator `/`? -/
def strEndsSlash (a : String) : Bool := listStarts ['/'] a.data.reverse

/-- `os.path.join` (POSIX, two components): an absolute second part
wins; otherwise concatenate, inserting `/` unless the first part is
empty or already ends with `/`. -/
def osPathJoin (a b : String) : String :=
  if listStarts ['/'] b.data then b
  else if a == "" || strEndsSlash a then a ++ b
  else a ++ "/" ++ b

/-- The sandbox directory: `os.getenv("MCP_SAFE_DIR", "./mcp_workspace")`,
the environment variable modelled as an `Option String`. -/
def mcpSafeDir (envSafeDir : Option String) : String :=
  match envSafeDir with
  | none => "./mcp_workspace"
  | some v => v

/-- The one filesystem write `_write_file` attempts: the directory it
creates, the path it opens, and the data it writes. -/
structure WriteAttempt where
  dir : String
  target : String
  content : String
deriving DecidableEq

/-- `_write_file`: on the degenerate empty sandbox path `os.makedirs`
raises before any file is opened (caught, error string, no write);
otherwise the single opened path is `join(safe_dir, basename(path))`. -/
def write_file (envSafeDir : Option String) (path content : String) :
    Except String WriteAttempt :=
  if mcpSafeDir envSafeDir == "" then .error "❌ Błąd zapisu: makedirs"
  else .ok ⟨mcpSafeDir envSafeDir,
    osPathJoin (mcpSafeDir envSafeDir) (osPathBasename path), content⟩

/-! ## `_calculator` (mcp_tools.py 234-251)

The handler first checks every character against
`"0123456789+-*/().^ "` (or `isspace`), rejecting otherwise; then
replaces `^` with `**` and evaluates with Python `eval` under an
environment holding only the whitelisted math names.  Since letters are
not allowed characters, a validated expression is pure arithmetic; the
evaluator below models Python `eval` on that fragment (ints and floats,
floats modelled as exact rationals). -/

/-- The allowed characters of the calculator's validation. -/
def calcAllowedChars : List Char := "0123456789+-*/().^ ".data

/-- One character passes the validation (`c in allowed_chars or c.isspace()`,
with Python's Unicode `isspace`). -/
def calcCharOk (c : Char) : Bool := calcAllowedChars.contains c || pyIsSpace c

/-- `expression.replace("^", "**")`. -/
def replaceCaretChars : List Char → List Char
  | [] => []
  | c :: cs =>
    if c == '^' then '*' :: '*' :: replaceCaretChars cs
    else c :: replaceCaretChars cs

/-- A Python number: `int`, or `float` (modelled as an exact rational). -/
inductive PyNum
  | int (n : Int)
  | float (q : ℚ)
deriving DecidableEq

/-- Numeric value of a `PyNum`. -/
def PyNum.toRat : PyNum → ℚ
  | .int n => (n : ℚ)
  | .float q => q

/-- Python `+` on numbers: `int + int` is `int`, otherwise `float`. -/
def pyAdd : PyNum → PyNum → PyNum
  | .int a, .int b => .int (a + b)
  | a, b => .float (a.toRat + b.toRat)

/-- Python `-` on numbers. -/
def pySub : PyNum → PyNum → PyNum
  | .int a, .int b => .int (a - b)
  | a, b => .float (a.toRat - b.toRat)

/-- Python `*` on numbers. -/
def pyMul : PyNum → PyNum → PyNum
  | .int a, .int b => .int (a * b)
  | a, b => .float (a.toRat * b.toRat)

/-- Python `/`: always float division; zero divisor raises. -/
def pyDiv (a b : PyNum) : Except String PyNum :=
  if b.toRat == 0 then .error "division by zero"
  else .ok (.float (a.toRat / b.toRat))

/-- Python unary `-`. -/
def pyNeg : PyNum → PyNum
  | .int a => .int (-a)
  | .float q => .float (-q)

/-- Python `**` on the fragment the model covers: integer exponents
(`int ** nonneg int` stays `int`, as in Python); a fractional exponent
would in general be irrational and is outside the model. -/
def pyPow (a b : PyNum) : Except String PyNum :=
  match a, b with
  | .int m, .int n =>
    if 0 ≤ n then .ok (.int (m ^ n.toNat))
    else if m == 0 then .error "zero to a negative power"
    else .ok (.float ((m : ℚ) ^ n))
  | _, _ =>
    let qa := a.toRat
    let qb := b.toRat
    if qb.den == 1 then
      if qa == 0 && decide (qb.num < 0) then .error "zero to a negative power"
      else .ok (.float (qa ^ qb.num))
    else .error "non-integer exponent outside the model"

/-- Rendering of a result by `str` in the handler's format string:
exact for `int` (the case all the spec's examples exercise); for the
modelled floats, integral values render as Python does (`8.0`). -/
def PyNum.pyStr : PyNum → String
  | .int n => toString n
  | .float q => if q.den == 1 then toString q.num ++ ".0" else toString q

/-- Tokens of the validated arithmetic fragment (`nl` is a newline at
source level: CR or LF). -/
inductive CalcTok
  | num (v : PyNum)
  | plus
  | minus
  | star
  | slash
  | dstar
  | lpar
  | rpar
  | nl
deriving DecidableEq, BEq

/-- Value of a digit run. -/
def digitsVal (ds : List Char) : Nat :=
  ds.foldl (fun a c => a * 10 + (c.toNat - 48)) 0

/-- Is a character part of a numeric literal here? -/
def numChar (c : Char) : Bool := c.isDigit || c == '.'

/-- Lexer for the validated fragment (fuel makes it structural; any
fuel at least the length of the input gives the same answer, and the
fragment's claims only evaluate it on concrete inputs).  Whitespace as
in CPython's tokenizer: space, tab and form feed are skipped; CR/LF
become `nl` tokens (handled by `stripNl`); every other character —
including the remaining `str.isspace()` characters such as VT, NEL,
NBSP and the Unicode spaces, which pass the validation but which
CPython rejects as invalid non-printable characters — is an error. -/
def calcLex : Nat → List Char → Except String (List CalcTok)
  | _, [] => .ok []
  | 0, _ :: _ => .error "lexer fuel exhausted"
  | f + 1, c :: cs =>
    if c == ' ' || c == Char.ofNat 9 || c == Char.ofNat 12 then calcLex f cs
    else if c == Char.ofNat 10 || c == Char.ofNat 13 then
      (calcLex f cs).map (CalcTok.nl :: ·)
    else if c == '+' then (calcLex f cs).map (CalcTok.plus :: ·)
    else if c == '-' then (calcLex f cs).map (CalcTok.minus :: ·)
    else if c == '/' then (calcLex f cs).map (CalcTok.slash :: ·)
    else if c == '(' then (calcLex f cs).map (CalcTok.lpar :: ·)
    else if c == ')' then (calcLex f cs).map (CalcTok.rpar :: ·)
    else if c == '*' then
      match cs with
      | '*' :: cs2 => (calcLex f cs2).map (CalcTok.dstar :: ·)
      | _ => (calcLex f cs).map (CalcTok.star :: ·)
    else if numChar c then
      let ds := (c :: cs).takeWhile numChar
      let rest := (c :: cs).dropWhile numChar
      if 1 < ds.count '.' then .error "invalid decimal literal"
      else if ds.all (· == '.') then .error "invalid syntax"
      else
        let intPart := ds.takeWhile (fun x => !(x == '.'))
        let fracPart := (ds.dropWhile (fun x => !(x == '.'))).drop 1
        let v : PyNum :=
          if ds.contains '.' then
            .float ((digitsVal intPart : ℚ) +
              (digitsVal fracPart : ℚ) / ((10 : ℚ) ^ fracPart.length))
          else .int (digitsVal ds)
        (calcLex f rest).map (CalcTok.num v :: ·)
    else .error "invalid non-printable character"

/-- CPython's implicit line joining: inside parentheses a newline is
ignored; outside it stays (and is then legal only at the ends of the
input). -/
def stripNl : Nat → List CalcTok → List CalcTok
  | _, [] => []
  | depth, CalcTok.nl :: ts =>
    if 0 < depth then stripNl depth ts else CalcTok.nl :: stripNl depth ts
  | depth, CalcTok.lpar :: ts => CalcTok.lpar :: stripNl (depth + 1) ts
  | depth, CalcTok.rpar :: ts => CalcTok.rpar :: stripNl (depth - 1) ts
  | depth, t :: ts => t :: stripNl depth ts

/-- Recursive-descent evaluator with Python's precedence, as one
structural function on fuel.  The mode selects the grammar level:
0 additive, 1 additive-rest, 2 multiplicative, 3 multiplicative-rest,
4 unary, 5 power, 6 primary. -/
def calcParse : Nat → Nat → PyNum → List CalcTok →
    Except String (PyNum × List CalcTok)
  | 0, _, _, _ => .error "parser fuel exhausted"
  | f + 1, 0, _, ts => do
    let r ← calcParse f 2 (.int 0) ts
    calcParse f 1 r.1 r.2
  | f + 1, 1, acc, CalcTok.plus :: ts => do
    let r ← calcParse f 2 (.int 0) ts
    calcParse f 1 (pyAdd acc r.1) r.2
  | f + 1, 1, acc, CalcTok.minus :: ts => do
    let r ← calcParse f 2 (.int 0) ts
    calcParse f 1 (pySub acc r.1) r.2
  | _ + 1, 1, acc, ts => .ok (acc, ts)
  | f + 1, 2, _, ts => do
    let r ← calcParse f 4 (.int 0) ts
    calcParse f 3 r.1 r.2
  | f + 1, 3, acc, CalcTok.star :: ts => do
    let r ← calcParse f 4 (.int 0) ts
    calcParse f 3 (pyMul acc r.1) r.2
  | f + 1, 3, acc, CalcTok.slash :: ts => do
    let r ← calcParse f 4 (.int 0) ts
    let q ← pyDiv acc r.1
    calcParse f 3 q r.2
  | _ + 1, 3, acc, ts => .ok (acc, ts)
  | f + 1, 4, _, CalcTok.minus :: ts => do
    let r ← calcParse f 4 (.int 0) ts
    .ok (pyNeg r.1, r.2)
  | f + 1, 4, _, CalcTok.plus :: ts => calcParse f 4 (.int 0) ts
  | f + 1, 4, _, ts => calcParse f 5 (.int 0) ts
  | f + 1, 5, _, ts => do
    let r ← calcParse f 6 (.int 0) ts
    match r.2 with
    | CalcTok.dstar :: ts2 => do
      let e ← calcParse f 4 (.int 0) ts2
      let v ← pyPow r.1 e.1
      .ok (v, e.2)
    | _ => .ok r
  | _ + 1, 6, _, CalcTok.num v :: ts => .ok (v, ts)
  | f + 1, 6, _, CalcTok.lpar :: ts => do
    let r ← calcParse f 0 (.int 0) ts
    match r.2 with
    | CalcTok.rpar :: ts2 => .ok (r.1, ts2)
    | _ => .error "expected closing parenthesis"
  | _ + 1, 6, _, _ => .error "invalid syntax"
  | _ + 1, _, _, _ => .error "invalid syntax"

/-- Python `eval` on the validated arithmetic fragment.  Newlines are
dropped inside brackets and at either end of the input (both legal in
`eval` mode); a newline between tokens at bracket depth zero is a
syntax error, as in CPython. -/
def pyEvalCalc (s : String) : Except String PyNum := do
  let ts0 ← calcLex s.data.length s.data
  let ts1 := stripNl 0 ts0
  let ts := ((ts1.dropWhile (· == CalcTok.nl)).reverse.dropWhile
    (· == CalcTok.nl)).reverse
  if ts.contains CalcTok.nl then .error "invalid syntax"
  else
    let r ← calcParse (4 * ts.length + 8) 0 (.int 0) ts
    match r.2 with
    | [] => .ok r.1
    | _ => .error "invalid syntax"

/-- `_calculator`: validate the character set, rejecting on any other
character before any evaluation; then replace `^` by `**` and evaluate.
The whitelisted-names environment (`sin`, `cos`, ..., `pow`) is
unreachable by a validated expression, since letters are rejected, so
the arithmetic evaluator covers every validated input. -/
def calculator (expression : String) : String :=
  if !(expression.data.all calcCharOk) then
    "❌ Niedozwolone znaki w wyrażeniu"
  else
    let e2 : String := ⟨replaceCaretChars expression.data⟩
    match pyEvalCalc e2 with
    | .ok v => "🔢 " ++ e2 ++ " = " ++ v.pyStr
    | .error m => "❌ Błąd obliczeń: " ++ m

example : calculator "2^3" = "🔢 2**3 = 8" := by decide

example : calculator "2+2" = "🔢 2+2 = 4" := by decide

/-! ## Research client (`ResearchTools`, research_tools.py)

`search` is modelled with its external collaborators explicit:
* `api_key` — `self.tavily_api_key` (empty string when unconfigured);
* `parseDate` — `datetime.fromisoformat(pub_date.replace("Z", "+00:00"))`,
  an abstract parser returning `none` when it raises, and otherwise a
  `PyDate` that is *naive* or *aware* (a date string carrying `Z` or an
  offset parses to an aware value);
* `now` — the clock instant `datetime.now()` returns (a naive value);
* `http` — the outcome of `requests.post`: `.error msg` when it raises
  (`str(e)` being `msg`), `.ok resp` for a received response. -/

/-- A Python `datetime`: a time point, tagged naive or timezone-aware. -/
inductive PyDate
  | naive (t : Int)
  | aware (t : Int)
deriving DecidableEq

/-- Python `>=` on datetimes: comparing an aware value with a naive one
raises `TypeError` (`none`); same-kind values compare by time. -/
def pyDateGE : PyDate → PyDate → Option Bool
  | .naive a, .naive b => some (b ≤ a)
  | .aware a, .aware b => some (b ≤ a)
  | _, _ => none

/-- One upstream search result (a JSON dict; keys the code reads are
optional fields). -/
structure SearchResult where
  url : Option String
  title : Option String
  content : Option String
  published_date : Option String
  score : Option ℚ
deriving DecidableEq

/-- The response dict of `search` / `_mock_search`.  Keys absent from a
given literal are `none` (`results` defaults to `[]`, matching the
`.get("results", [])` reads); `mock` is true only in the mock literal. -/
structure SearchResponse where
  success : Bool
  query : Option String
  results : List SearchResult
  total_found : Option Nat
  filtered_by_date : Option Bool
  response_time_ms : Option ℚ
  answer : Option String
  error : Option String
  message : Option String
  mock : Bool
deriving DecidableEq

/-- The received HTTP response of the search POST. -/
structure HttpResp where
  status : Nat
  results : List SearchResult
  answer : Option String
  text : String
  elapsed_ms : ℚ
deriving DecidableEq

/-- The date-filter loop of `search` (research_tools.py 72-85), with the
source's `try` structure explicit: a result is appended when its
`published_date` is absent, when `fromisoformat` raises, when the
comparison with the naive cutoff raises (aware date), or when the
comparison succeeds with `result_date >= cutoff_date`. -/
def filterByDate (parseDate : String → Option PyDate) (cutoff : PyDate) :
    List SearchResult → List SearchResult
  | [] => []
  | r :: rs =>
    let rest := filterByDate parseDate cutoff rs
    match r.published_date with
    | some pd =>
      match parseDate pd with
      | some d =>
        match pyDateGE d cutoff with
        | some b => if b then r :: rest else rest
        | none => r :: rest
      | none => r :: rest
    | none => r :: rest

/-- The keep-condition of one iteration of the date-filter loop. -/
def keepResult (parseDate : String → Option PyDate) (cutoff : PyDate)
    (r : SearchResult) : Bool :=
  match r.published_date with
  | some pd =>
    match parseDate pd with
    | some d =>
      match pyDateGE d cutoff with
      | some b => b
      | none => true
    | none => true
  | none => true

/-- `query.replace(" ", "-")`. -/
def spaceDashChars : List Char → List Char
  | [] => []
  | c :: cs => (if c == ' ' then '-' else c) :: spaceDashChars cs

/-- Abstract rendering of `(datetime.now() - timedelta(days=7)).isoformat()`:
an injective rendering of the time point. -/
def isoformatTime (t : Int) : String := toString t

/-- `_mock_search` (research_tools.py 234-253): the credential-absent
response, a single synthetic result whose `published_date` is the
current time minus seven days. -/
def mock_search (now : Int) (query : String) (max_age_days : Int) :
    SearchResponse where
  success := true
  query := some query
  results := [⟨some ("https://example.com/article-" ++ ⟨spaceDashChars query.data⟩),
               some ("Wynik 1 dla: " ++ query),
               some ("Symulowany wynik wyszukiwania dla " ++ apos ++ query ++ apos
                 ++ ". Informacja nie starsza niż " ++ toString max_age_days ++ " dni."),
               some (isoformatTime (now - 7)),
               some (95 / 100)⟩]
  total_found := some 1
  filtered_by_date := some false
  response_time_ms := some 50
  answer := none
  error := none
  message := some "Brak TAVILY_API_KEY - używam symulowanych wyników"
  mock := true

/-- `search` (research_tools.py 25-107): mock when no credential;
otherwise the POST outcome decides failure (raised or non-200) or the
200 branch, which date-filters the upstream results with cutoff
`now - max_age_days`, truncates to `num_results`, and flags
`filtered_by_date` iff the filtered list is strictly shorter than the
raw one. -/
def search (api_key : String) (parseDate : String → Option PyDate)
    (now : Int) (http : Except String HttpResp) (query : String)
    (max_age_days : Int) (num_results : Nat) : SearchResponse :=
  if api_key == "" then mock_search now query max_age_days
  else
    match http with
    | .error e =>
      { success := false, query := none, results := [], total_found := none
      , filtered_by_date := none, response_time_ms := none, answer := none
      , error := some e, message := some "Błąd połączenia z Tavily API"
      , mock := false }
    | .ok resp =>
      if resp.status == 200 then
        let cutoff := PyDate.naive (now - max_age_days)
        let filtered := filterByDate parseDate cutoff resp.results
        { success := true, query := some query
        , results := filtered.take num_results
        , total_found := some filtered.length
        , filtered_by_date := some (decide (filtered.length < resp.results.length))
        , response_time_ms := some resp.elapsed_ms
        , answer := some (resp.answer.getD "")
        , error := none, message := none, mock := false }
      else
        { success := false, query := none, results := [], total_found := none
        , filtered_by_date := none, response_time_ms := none, answer := none
        , error := some ("API error: " ++ toString resp.status)
        , message := some resp.text, mock := false }

/-- The response dict of `deep_research`. -/
structure DeepResponse where
  success : Bool
  query : String
  results : List SearchResult
  total_unique : Nat
  sources_checked : List String
  timestamp : Int
deriving DecidableEq

/-- The duplicate-removal loop of `deep_research` (research_tools.py
208-214): keep a result when its `url` is present, non-empty (Python
truthiness of `if url`) and not seen yet, recording it as seen. -/
def dedupByUrl (seen : List String) : List SearchResult → List SearchResult
  | [] => []
  | r :: rs =>
    match r.url with
    | some u =>
      if !(u == "") && !(seen.contains u) then
        r :: dedupByUrl (seen ++ [u]) rs
      else dedupByUrl seen rs
    | none => dedupByUrl seen rs

/-- `deep_research` (research_tools.py 188-223): for the `"tavily"`
source call `search` with `num_results = 10`, keep its results only on
success, deduplicate by URL, cap at 15, and always report success. -/
def deep_research (api_key : String) (parseDate : String → Option PyDate)
    (now : Int) (http : Except String HttpResp) (query : String)
    (sources : List String) (max_age_days : Int) : DeepResponse :=
  let all_results :=
    if sources.contains "tavily" then
      let tavily_results := search api_key parseDate now http query max_age_days 10
      if tavily_results.success then tavily_results.results else []
    else []
  let unique_results := dedupByUrl [] all_results
  { success := true
  , query := query
  , results := unique_results.take 15
  , total_unique := unique_results.length
  , sources_checked := sources
  , timestamp := now }

/-! ## Helper lemmas about the scanner -/

theorem listStarts_append_self (n t : List Char) : listStarts n (n ++ t) = true := by
  induction n with
  | nil => rfl
  | cons c cs ih => simp [listStarts, ih]

theorem listStarts_length {n h : List Char} (hs : listStarts n h = true) :
    n.length ≤ h.length := by
  induction n generalizing h with
  | nil => exact Nat.zero_le _
  | cons c cs ih =>
    cases h with
    | nil => simp [listStarts] at hs
    | cons b bs =>
      simp only [listStarts, Bool.and_eq_true] at hs
      simpa using ih hs.2

theorem listStarts_true_exists {n h : List Char} (hs : listStarts n h = true) :
    ∃ t, h = n ++ t := by
  induction n generalizing h with
  | nil => exact ⟨h, rfl⟩
  | cons c cs ih =>
    cases h with
    | nil => simp [listStarts] at hs
    | cons b bs =>
      simp only [listStarts, Bool.and_eq_true, beq_iff_eq] at hs
      obtain ⟨t, ht⟩ := ih hs.2
      exact ⟨t, by simp [hs.1, ht]⟩

theorem listStarts_of_take {n l : List Char} (t : List Char)
    (hl : n.length ≤ l.length) : listStarts n (l ++ t) = listStarts n l := by
  induction n generalizing l with
  | nil => rfl
  | cons c cs ih =>
    cases l with
    | nil => simp at hl
    | cons b bs =>
      simp only [List.cons_append, listStarts, List.append_eq]
      rw [ih (by simpa using hl)]

theorem takeWhile_all_append {p : Char → Bool} {xs : List Char} {y : Char}
    (t : List Char) (hxs : ∀ c ∈ xs, p c = true) (hy : p y = false) :
    (xs ++ y :: t).takeWhile p = xs ∧ (xs ++ y :: t).dropWhile p = y :: t := by
  induction xs with
  | nil => simp [List.takeWhile, List.dropWhile, hy]
  | cons c cs ih =>
    have hc : p c = true := hxs c (by simp)
    have ihr := ih (fun d hd => hxs d (by simp [hd]))
    simp [List.takeWhile, List.dropWhile, hc, ihr.1, ihr.2]

theorem dropWhile_length_le (p : Char → Bool) (l : List Char) :
    (l.dropWhile p).length ≤ l.length := by
  induction l with
  | nil => simp
  | cons c cs ih =>
    by_cases hc : p c = true
    · simp only [List.dropWhile, hc]
      exact Nat.le_succ_of_le ih
    · simp [List.dropWhile, hc]

theorem findClose_some_len {cs a r : List Char}
    (h : findClose cs = some (a, r)) : a.length + 7 + r.length = cs.length := by
  induction cs generalizing a r with
  | nil => simp [findClose] at h
  | cons c cs' ih =>
    by_cases hs : listStarts closeTag (c :: cs') = true
    · have hlen : 7 ≤ (c :: cs').length := listStarts_length hs
      simp only [findClose, hs, if_true, Option.some.injEq, Prod.mk.injEq] at h
      obtain ⟨ha, hr⟩ := h
      subst ha; subst hr
      simp only [List.length_drop, List.length_nil]
      omega
    · simp only [findClose, if_neg hs] at h
      cases hfc : findClose cs' with
      | none => rw [hfc] at h; simp at h
      | some pr =>
        obtain ⟨a', r'⟩ := pr
        rw [hfc] at h
        simp only [Option.some.injEq, Prod.mk.injEq] at h
        obtain ⟨ha, hr⟩ := h
        subst ha; subst hr
        have := ih hfc
        simp only [List.length_cons]
        omega

theorem findClose_decomp {cs a r : List Char}
    (h : findClose cs = some (a, r)) : cs = a ++ closeTag ++ r := by
  induction cs generalizing a r with
  | nil => simp [findClose] at h
  | cons c cs' ih =>
    by_cases hs : listStarts closeTag (c :: cs') = true
    · obtain ⟨t, ht⟩ := listStarts_true_exists hs
      simp only [findClose, hs, if_true, Option.some.injEq, Prod.mk.injEq] at h
      obtain ⟨ha, hr⟩ := h
      subst ha; subst hr
      rw [ht]
      have h7 : closeTag.length = 7 := rfl
      simp [← h7, List.drop_left]
    · simp only [findClose, if_neg hs] at h
      cases hfc : findClose cs' with
      | none => rw [hfc] at h; simp at h
      | some pr =>
        obtain ⟨a', r'⟩ := pr
        rw [hfc] at h
        simp only [Option.some.injEq, Prod.mk.injEq] at h
        obtain ⟨ha, hr⟩ := h
        subst ha; subst hr
        simp [ih hfc]

theorem findClose_boundary {args : List Char} (post : List Char)
    (h : ∀ i, i < args.length →
      listStarts closeTag ((args ++ closeTag).drop i) = false) :
    findClose (args ++ (closeTag ++ post)) = some (args, post) := by
  induction args with
  | nil =>
    simp only [List.nil_append]
    show findClose ('[' :: '/' :: 'T' :: 'O' :: 'O' :: 'L' :: ']' :: post) = some ([], post)
    have hT : listStarts closeTag ('[' :: '/' :: 'T' :: 'O' :: 'O' :: 'L' :: ']' :: post) = true :=
      listStarts_append_self closeTag post
    rw [findClose, if_pos hT]
    rfl
  | cons a args' ih =>
    have h0 : listStarts closeTag ((a :: args' ++ closeTag).drop 0) = false :=
      h 0 (by simp)
    simp only [List.drop_zero] at h0
    have hlen : closeTag.length ≤ (a :: args' ++ closeTag).length := by
      simp only [List.length_cons, List.length_append]
      omega
    have hfalse : listStarts closeTag ((a :: args' ++ closeTag) ++ post) = false := by
      rw [listStarts_of_take post hlen]; exact h0
    have hfalse' : listStarts closeTag (a :: (args' ++ (closeTag ++ post))) = false := by
      simpa [List.append_assoc] using hfalse
    simp only [List.cons_append]
    rw [findClose, if_neg (by simp [hfalse'])]
    rw [ih (fun i hi => by
      have := h (i + 1) (by simpa using Nat.succ_lt_succ hi)
      simpa [List.drop_succ_cons] using this)]

theorem matchAt_none_head {c : Char} (cs : List Char)
    (hc : (('[' : Char) == c) = false) : matchAt (c :: cs) = none := by
  have hfalse : listStarts openTag (c :: cs) = false := by
    simp [openTag, listStarts, hc]
  simp [matchAt, hfalse]

theorem matchAt_some_len {cs : List Char} {m : List Char × List Char}
    {rest : List Char} (h : matchAt cs = some (m, rest)) :
    rest.length < cs.length := by
  by_cases hs : listStarts openTag cs = true
  · have hlen6 : 6 ≤ cs.length := listStarts_length hs
    simp only [matchAt, hs, if_true] at h
    by_cases hname : (cs.drop 6).takeWhile wordChar = []
    · simp [hname] at h
    · rw [if_neg (by simpa [List.isEmpty_iff] using hname)] at h
      by_cases hbr : listStarts [']'] ((cs.drop 6).dropWhile wordChar) = true
      · rw [if_pos hbr] at h
        cases hfc : findClose (((cs.drop 6).dropWhile wordChar).drop 1) with
        | none => rw [hfc] at h; simp at h
        | some pr =>
          obtain ⟨args, after⟩ := pr
          rw [hfc] at h
          simp only [Option.some.injEq, Prod.mk.injEq] at h
          obtain ⟨h1, h2⟩ := h
          subst h2
          have hfcl := findClose_some_len hfc
          have hd : ((cs.drop 6).dropWhile wordChar).length ≤ (cs.drop 6).length :=
            dropWhile_length_le _ _
          have h1 : 1 ≤ ((cs.drop 6).dropWhile wordChar).length := listStarts_length hbr
          simp only [List.length_drop] at hfcl hd ⊢
          omega
      · rw [if_neg hbr] at h; simp at h
  · simp [matchAt, hs] at h

theorem matchAt_some_decomp {cs : List Char} {n a rest : List Char}
    (h : matchAt cs = some ((n, a), rest)) :
    cs = openTag ++ (n ++ ']' :: (a ++ closeTag ++ rest))
      ∧ n ≠ [] ∧ ∀ c ∈ n, wordChar c = true := by
  by_cases hs : listStarts openTag cs = true
  · obtain ⟨t, ht⟩ := listStarts_true_exists hs
    have hdrop : cs.drop 6 = t := by
      rw [ht]
      have h6 : openTag.length = 6 := rfl
      rw [← h6, List.drop_left]
    simp only [matchAt, hs, if_true, hdrop] at h
    by_cases hname : t.takeWhile wordChar = []
    · simp [hname] at h
    · rw [if_neg (by simpa [List.isEmpty_iff] using hname)] at h
      by_cases hbr : listStarts [']'] (t.dropWhile wordChar) = true
      · rw [if_pos hbr] at h
        cases hfc : findClose ((t.dropWhile wordChar).drop 1) with
        | none => rw [hfc] at h; simp at h
        | some pr =>
          obtain ⟨args, after⟩ := pr
          rw [hfc] at h
          simp only [Option.some.injEq, Prod.mk.injEq] at h
          obtain ⟨⟨hn1, ha1⟩, hrest⟩ := h
          subst hn1; subst ha1; subst hrest
          obtain ⟨t2, ht2⟩ := listStarts_true_exists hbr
          refine ⟨?_, hname, fun c hc => List.mem_takeWhile_imp hc⟩
          have hsplit : t.takeWhile wordChar ++ t.dropWhile wordChar = t :=
            List.takeWhile_append_dropWhile _ _
          have hdrop1 : (t.dropWhile wordChar).drop 1 = t2 := by rw [ht2]; rfl
          rw [hdrop1] at hfc
          have ht2' : t2 = args ++ closeTag ++ after := findClose_decomp hfc
          have htfull : t = t.takeWhile wordChar ++ (']' :: (args ++ closeTag ++ after)) := by
            conv_lhs => rw [← hsplit]
            rw [ht2, ht2']
            simp
          rw [ht]
          conv_lhs => rw [htfull]
      · rw [if_neg hbr] at h; simp at h
  · simp [matchAt, hs] at h

theorem matchAt_at_marker {name args : List Char} (post : List Char)
    (hn : name ≠ []) (hw : ∀ c ∈ name, wordChar c = true)
    (ha : ∀ i, i < args.length →
      listStarts closeTag ((args ++ closeTag).drop i) = false) :
    matchAt (openTag ++ (name ++ ']' :: (args ++ (closeTag ++ post))))
      = some ((name, args), post) := by
  have hstart : listStarts openTag
      (openTag ++ (name ++ ']' :: (args ++ (closeTag ++ post)))) = true :=
    listStarts_append_self _ _
  have hdrop : (openTag ++ (name ++ ']' :: (args ++ (closeTag ++ post)))).drop 6
      = name ++ ']' :: (args ++ (closeTag ++ post)) := by
    have h6 : openTag.length = 6 := rfl
    rw [← h6, List.drop_left]
  have htw := takeWhile_all_append (t := args ++ (closeTag ++ post)) hw
    (show wordChar ']' = false from rfl)
  simp only [matchAt, hstart, if_true, hdrop, htw.1, htw.2]
  rw [if_neg (by simpa [List.isEmpty_iff] using hn)]
  rw [if_pos (show listStarts [']'] (']' :: (args ++ (closeTag ++ post))) = true by
    simp [listStarts])]
  rw [show (']' :: (args ++ (closeTag ++ post))).drop 1 = args ++ (closeTag ++ post)
    from rfl]
  rw [findClose_boundary post ha]

theorem scanFuel_step_some {cs : List Char} {m : List Char × List Char}
    {rest : List Char} (f : Nat) (hm : matchAt cs = some (m, rest)) :
    scanFuel (f + 1) cs = m :: scanFuel f rest := by
  cases cs with
  | nil => simp [matchAt, listStarts, openTag] at hm
  | cons c cs' => simp only [scanFuel, hm]

theorem scanFuel_step_none {cs : List Char} (f : Nat)
    (hm : matchAt cs = none) :
    scanFuel (f + 1) cs = scanFuel f cs.tail := by
  cases cs with
  | nil => cases f <;> rfl
  | cons c cs' => simp only [scanFuel, hm, List.tail_cons]

theorem scanFuel_fuel_irrel : ∀ f g : Nat, ∀ cs : List Char,
    cs.length ≤ f → cs.length ≤ g → scanFuel f cs = scanFuel g cs := by
  intro f
  induction f with
  | zero =>
    intro g cs hf _
    have : cs = [] := List.eq_nil_of_length_eq_zero (Nat.le_zero.mp hf)
    subst this
    cases g <;> rfl
  | succ f' ih =>
    intro g cs hf hg
    cases cs with
    | nil => cases g <;> rfl
    | cons c cs' =>
      cases g with
      | zero => simp at hg
      | succ g' =>
        cases hm : matchAt (c :: cs') with
        | none =>
          rw [scanFuel_step_none f' hm, scanFuel_step_none g' hm]
          exact ih g' cs' (by simpa using Nat.le_of_succ_le_succ hf)
            (by simpa using Nat.le_of_succ_le_succ hg)
        | some pr =>
          obtain ⟨m, rest⟩ := pr
          have hlt := matchAt_some_len hm
          rw [scanFuel_step_some f' hm, scanFuel_step_some g' hm]
          simp only [List.length_cons] at hlt hf hg
          rw [ih g' rest (by omega) (by omega)]

theorem scanFuel_cons_decomp : ∀ f : Nat, ∀ cs n a : List Char,
    ∀ ms : List (List Char × List Char),
    scanFuel f cs = (n, a) :: ms →
    ∃ pre post, cs = pre ++ (openTag ++ (n ++ ']' :: (a ++ closeTag ++ post)))
      ∧ n ≠ [] ∧ ∀ c ∈ n, wordChar c = true := by
  intro f
  induction f with
  | zero =>
    intro cs n a ms h
    cases cs <;> simp [scanFuel] at h
  | succ f' ih =>
    intro cs n a ms h
    cases cs with
    | nil => simp [scanFuel] at h
    | cons c cs' =>
      cases hm : matchAt (c :: cs') with
      | none =>
        rw [scanFuel_step_none f' hm, List.tail_cons] at h
        obtain ⟨pre, post, hd, hn, hw⟩ := ih cs' n a ms h
        exact ⟨c :: pre, post, by simp [hd], hn, hw⟩
      | some pr =>
        obtain ⟨m, rest⟩ := pr
        rw [scanFuel_step_some f' hm] at h
        simp only [List.cons.injEq] at h
        obtain ⟨hm1, _⟩ := h
        rw [hm1] at hm
        obtain ⟨hd, hn, hw⟩ := matchAt_some_decomp hm
        exact ⟨[], rest, by simpa using hd, hn, hw⟩

theorem scanFuel_marker : ∀ pre : List Char, ∀ f : Nat,
    ∀ name args post : List Char,
    (∀ c ∈ pre, (('[' : Char) == c) = false) →
    name ≠ [] → (∀ c ∈ name, wordChar c = true) →
    (∀ i, i < args.length →
      listStarts closeTag ((args ++ closeTag).drop i) = false) →
    (pre ++ (openTag ++ (name ++ ']' :: (args ++ (closeTag ++ post))))).length ≤ f →
    scanFuel f (pre ++ (openTag ++ (name ++ ']' :: (args ++ (closeTag ++ post)))))
      = (name, args) :: scanFuel post.length post := by
  intro pre
  induction pre with
  | nil =>
    intro f name args post _ hn hw ha hf
    simp only [List.nil_append] at hf ⊢
    cases f with
    | zero => simp [List.length_append] at hf
    | succ f' =>
      rw [scanFuel_step_some f' (matchAt_at_marker post hn hw ha)]
      have hpost : post.length ≤ f' := by
        simp only [List.length_append, List.length_cons] at hf
        omega
      rw [scanFuel_fuel_irrel f' post.length post hpost (Nat.le_refl _)]
  | cons c pre' ih =>
    intro f name args post hpre hn hw ha hf
    cases f with
    | zero => simp [List.length_append] at hf
    | succ f' =>
      simp only [List.cons_append]
      rw [scanFuel_step_none f' (matchAt_none_head _ (hpre c (by simp))),
        List.tail_cons]
      exact ih f' name args post (fun d hd => hpre d (by simp [hd])) hn hw ha
        (by simpa using Nat.le_of_succ_le_succ (by simpa using hf))

/-- A text with no `[TOOL:` opener anywhere admits no marker
decomposition (used to discharge the no-occurrence hypothesis on
concrete texts). -/
theorem no_open_no_marker {cs : List Char}
    (h : ∀ i, i ≤ cs.length → listStarts openTag (cs.drop i) = false) :
    ∀ pre n a post : List Char, n ≠ [] → (∀ c ∈ n, wordChar c = true) →
      cs ≠ pre ++ (openTag ++ (n ++ ']' :: (a ++ closeTag ++ post))) := by
  intro pre n a post _ _ heq
  have hb : pre.length ≤ cs.length := by
    rw [heq]
    simp only [List.length_append]
    omega
  have h2 := h pre.length hb
  rw [heq, List.drop_left, listStarts_append_self] at h2
  exact Bool.noConfusion h2

/-! ## Claim theorems: the call-syntax parser -/

/-- C5: the parser returns exactly one invocation entry per occurrence
of `[TOOL:name]args[/TOOL]` (name a non-empty word token, args lazy and
free to contain newlines), in left-to-right order; a text containing no
such occurrence yields the empty sequence. -/
theorem parse_tool_call_per_occurrence :
    (∀ text : String,
      (∀ pre n a post : List Char, n ≠ [] → (∀ c ∈ n, wordChar c = true) →
        text.data ≠ pre ++ (openTag ++ (n ++ ']' :: (a ++ closeTag ++ post)))) →
      parse_tool_call_from_text text = [])
    ∧ (∀ pre name args post : List Char,
        (∀ c ∈ pre, (('[' : Char) == c) = false) →
        name ≠ [] → (∀ c ∈ name, wordChar c = true) →
        (∀ i, i < args.length →
          listStarts closeTag ((args ++ closeTag).drop i) = false) →
        parse_tool_call_from_text
            ⟨pre ++ (openTag ++ (name ++ ']' :: (args ++ (closeTag ++ post))))⟩
          = (⟨name⟩, parseKwargs ⟨name⟩ args)
              :: parse_tool_call_from_text ⟨post⟩) := by
  constructor
  · intro text hno
    unfold parse_tool_call_from_text toolMarkers
    cases hscan : scanFuel text.data.length text.data with
    | nil => rfl
    | cons hd tl =>
      obtain ⟨n, a⟩ := hd
      obtain ⟨pre, post, hd2, hn, hw⟩ := scanFuel_cons_decomp _ _ _ _ _ hscan
      exact absurd (by simpa [List.append_assoc] using hd2) (hno pre n a post hn hw)
  · intro pre name args post hpre hn hw ha
    unfold parse_tool_call_from_text toolMarkers
    have hdata : (⟨pre ++ (openTag ++ (name ++ ']' :: (args ++ (closeTag ++ post))))⟩ :
        String).data
        = pre ++ (openTag ++ (name ++ ']' :: (args ++ (closeTag ++ post)))) := rfl
    rw [hdata, scanFuel_marker pre _ name args post hpre hn hw ha (Nat.le_refl _)]
    rfl

/-- Closed instance of C5: one marker with a newline inside its args,
prefixed by marker-free text and followed by a second marker; a
marker-free text parsing to the empty sequence; and a marker whose name
holds a non-ASCII word character (`é`). -/
theorem parse_tool_call_per_occurrence_witness :
    parse_tool_call_from_text "just some text" = []
    ∧ parse_tool_call_from_text
        ⟨"ab ".data ++ (openTag ++ ("calculator".data ++ ']' ::
          (('2' :: '+' :: Char.ofNat 10 :: '2' :: [])
            ++ (closeTag ++ "[TOOL:read_file]x[/TOOL]".data))))⟩
      = ("calculator",
          parseKwargs "calculator" ('2' :: '+' :: Char.ofNat 10 :: '2' :: []))
        :: parse_tool_call_from_text ⟨"[TOOL:read_file]x[/TOOL]".data⟩
    ∧ parse_tool_call_from_text
        ⟨[] ++ (openTag ++ ("café".data ++ ']' :: ("x".data ++ (closeTag ++ []))))⟩
      = ("café", parseKwargs "café" "x".data) :: parse_tool_call_from_text ⟨[]⟩ := by
  refine ⟨?_, ?_, ?_⟩
  · exact parse_tool_call_per_occurrence.1 "just some text"
      (no_open_no_marker (by decide))
  · exact parse_tool_call_per_occurrence.2 "ab ".data "calculator".data
      ('2' :: '+' :: Char.ofNat 10 :: '2' :: []) "[TOOL:read_file]x[/TOOL]".data
      (by decide) (by decide) (by decide) (by decide)
  · exact parse_tool_call_per_occurrence.2 [] "café".data "x".data []
      (by decide) (by decide) (by decide) (by decide)

/-- C6: with no `=` in the args segment, the positional fallback maps
the trimmed segment by tool name: `read_file` to `path`; `write_file`
split once on the first `|` into `path` and `content` (empty `content`
with no `|`); `tavily_scrape` to `url`; every other tool name to
`query` — and `[TOOL:calculator]2+2[/TOOL]` parses to exactly one call
with args `query = 2+2`. -/
theorem parse_positional_fallback :
    (∀ toolName : String, ∀ argsText : List Char,
      argsText.contains '=' = false →
      (toolName = "read_file" →
        parseKwargs toolName argsText = [("path", pyStrip ⟨argsText⟩)])
      ∧ (toolName = "write_file" →
        parseKwargs toolName argsText =
          [("path", pyStrip ⟨(splitFirstChar '|' argsText).1⟩),
           ("content", match (splitFirstChar '|' argsText).2 with
             | some rest => pyStrip ⟨rest⟩
             | none => "")])
      ∧ (toolName = "tavily_scrape" →
        parseKwargs toolName argsText = [("url", pyStrip ⟨argsText⟩)])
      ∧ (toolName ≠ "read_file" → toolName ≠ "write_file" →
          toolName ≠ "tavily_scrape" →
          parseKwargs toolName argsText = [("query", pyStrip ⟨argsText⟩)]))
    ∧ parse_tool_call_from_text "[TOOL:calculator]2+2[/TOOL]"
        = [("calculator", [("query", "2+2")])] := by
  constructor
  · intro toolName argsText hnoeq
    have hmem : ('=' : Char) ∉ argsText := by simpa using hnoeq
    refine ⟨?_, ?_, ?_, ?_⟩
    · intro h; subst h; simp [parseKwargs, hmem]
    · intro h; subst h; simp [parseKwargs, hmem]
    · intro h; subst h; simp [parseKwargs, hmem, researchFallbackTools]
    · intro h1 h2 h3
      simp [parseKwargs, hmem, researchFallbackTools, h1, h2, h3]
  · decide

/-- Closed instance of C6: the default fallback, the `read_file`
fallback — also with a trailing form feed, which `str.strip()` removes
— and the calculator example. -/
theorem parse_positional_fallback_witness :
    parseKwargs "deep_research" "hello world".data = [("query", "hello world")]
    ∧ parseKwargs "read_file" " a.txt ".data = [("path", "a.txt")]
    ∧ parseKwargs "read_file" ("a.txt".data ++ [Char.ofNat 12]) = [("path", "a.txt")]
    ∧ parse_tool_call_from_text "[TOOL:calculator]2+2[/TOOL]"
        = [("calculator", [("query", "2+2")])] := by
  refine ⟨?_, ?_, ?_, parse_positional_fallback.2⟩
  · have h := ((parse_positional_fallback.1 "deep_research" "hello world".data
      (by decide)).2.2.2) (by decide) (by decide) (by decide)
    rw [h]; decide
  · have h := ((parse_positional_fallback.1 "read_file" " a.txt ".data
      (by decide)).1) rfl
    rw [h]; decide
  · have h := ((parse_positional_fallback.1 "read_file"
      ("a.txt".data ++ [Char.ofNat 12]) (by decide)).1) rfl
    rw [h]; decide

/-- The key-value pair one `|`-piece contributes in key=value mode:
pieces without `=` contribute nothing; the rest split on the first `=`,
key and value trimmed. -/
def pairOf (piece : List Char) : Option (String × String) :=
  if piece.contains '=' then
    some (pyStrip ⟨(splitFirstChar '=' piece).1⟩,
          pyStrip ⟨(splitFirstChar '=' piece).2.getD []⟩)
  else none

theorem dictInsert_fresh (d : List (String × String)) (k v : String)
    (h : ∀ p ∈ d, p.1 ≠ k) : dictInsert d k v = d ++ [(k, v)] := by
  have hany : d.any (fun p => p.1 == k) = false := by
    rw [List.any_eq_false]
    intro p hp
    simpa using h p hp
  simp [dictInsert, hany]

theorem foldl_insert_fresh : ∀ pieces : List (List Char),
    ∀ acc : List (String × String),
    ((acc ++ pieces.filterMap pairOf).map Prod.fst).Nodup →
    pieces.foldl (fun kw piece =>
      if piece.contains '=' then
        dictInsert kw (pyStrip ⟨(splitFirstChar '=' piece).1⟩)
          (pyStrip ⟨(splitFirstChar '=' piece).2.getD []⟩)
      else kw) acc = acc ++ pieces.filterMap pairOf := by
  intro pieces
  induction pieces with
  | nil =>
    intro acc _
    simp
  | cons p ps ih =>
    intro acc hnd
    by_cases hp : p.contains '=' = true
    · have hpair : pairOf p = some (pyStrip ⟨(splitFirstChar '=' p).1⟩,
          pyStrip ⟨(splitFirstChar '=' p).2.getD []⟩) := by
        simp only [pairOf, hp, if_true]
      have hnd' : ((acc ++ ((pyStrip ⟨(splitFirstChar '=' p).1⟩,
          pyStrip ⟨(splitFirstChar '=' p).2.getD []⟩) :: ps.filterMap pairOf)).map
            Prod.fst).Nodup := by
        simpa [List.filterMap_cons, hpair] using hnd
      have hfresh : ∀ q ∈ acc, q.1 ≠ pyStrip ⟨(splitFirstChar '=' p).1⟩ := by
        intro q hq hbad
        have hdisj := (List.nodup_append.mp (by simpa [List.map_append] using hnd')).2.2
        exact hdisj (List.mem_map_of_mem Prod.fst hq) (by simp [hbad])
      simp only [List.foldl_cons, hp, if_true]
      rw [dictInsert_fresh acc _ _ hfresh]
      rw [ih (acc ++ [(pyStrip ⟨(splitFirstChar '=' p).1⟩,
          pyStrip ⟨(splitFirstChar '=' p).2.getD []⟩)])
        (by simpa [List.append_assoc] using hnd')]
      simp [List.filterMap_cons, hpair]
    · have hpb : p.contains '=' = false := by
        cases hc : p.contains '=' with
        | true => exact absurd hc hp
        | false => rfl
      have hpair : pairOf p = none := by simp only [pairOf, hpb, Bool.false_eq_true,
        if_false]
      simp only [List.foldl_cons, hpb, Bool.false_eq_true, if_false]
      rw [ih acc (by simpa [List.filterMap_cons, hpair] using hnd)]
      simp [List.filterMap_cons, hpair]

/-- C7: with at least one `=` in the args segment, it is split on `|`;
each piece with an `=` is split on its first `=` into trimmed key and
value, and pieces without `=` are silently skipped — and the
`write_file` key=value example parses accordingly. -/
theorem parse_keyvalue_args :
    (∀ toolName : String, ∀ argsText : List Char,
      argsText.contains '=' = true →
      (((splitOnChar '|' argsText).filterMap pairOf).map Prod.fst).Nodup →
      parseKwargs toolName argsText = (splitOnChar '|' argsText).filterMap pairOf)
    ∧ parse_tool_call_from_text "[TOOL:write_file]path=a.txt|content=hi[/TOOL]"
        = [("write_file", [("path", "a.txt"), ("content", "hi")])] := by
  constructor
  · intro toolName argsText heq hnd
    simp only [parseKwargs, heq, if_true]
    exact foldl_insert_fresh (splitOnChar '|' argsText) [] (by simpa using hnd)
  · decide

/-- Closed instance of C7: the spec's `write_file` key=value example —
at the `parseKwargs` level with a piece lacking `=` skipped, with
no-break-space padding that `str.strip()` removes, and at the
full-parser level. -/
theorem parse_keyvalue_args_witness :
    parseKwargs "write_file" "path= a.txt |junk|content=hi".data
      = [("path", "a.txt"), ("content", "hi")]
    ∧ parseKwargs "write_file" ("path=".data ++ [Char.ofNat 160] ++ "a.txt".data
        ++ [Char.ofNat 160] ++ "|content=hi".data)
      = [("path", "a.txt"), ("content", "hi")]
    ∧ parse_tool_call_from_text "[TOOL:write_file]path=a.txt|content=hi[/TOOL]"
        = [("write_file", [("path", "a.txt"), ("content", "hi")])] := by
  refine ⟨?_, ?_, parse_keyvalue_args.2⟩
  · have h := parse_keyvalue_args.1 "write_file" "path= a.txt |junk|content=hi".data
      (by decide) (by decide)
    rw [h]; decide
  · have h := parse_keyvalue_args.1 "write_file" ("path=".data ++ [Char.ofNat 160]
      ++ "a.txt".data ++ [Char.ofNat 160] ++ "|content=hi".data)
      (by decide) (by decide)
    rw [h]; decide

/-! ## Claim theorems: the registry -/

/-- C1: `execute_tool` always yields a string (it is a total function
into `String` by construction): an unregistered name yields the fixed
not-found message rather than an exception, a handler result is passed
through, and a raised exception — whatever the handler or its callees
raised — becomes the formatted error string, which contains both the
failing tool's name and the exception's message as substrings. -/
theorem execute_tool_isolation (reg : List ToolEntry) (name : String)
    (kwargs : List (String × String)) :
    (get_tool reg name = none →
      execute_tool reg name kwargs = toolNotFoundMsg name)
    ∧ (∀ t r, get_tool reg name = some t → t.function kwargs = .ok r →
        execute_tool reg name kwargs = r)
    ∧ (∀ t e, get_tool reg name = some t → t.function kwargs = .error e →
        execute_tool reg name kwargs = toolErrorMsg name e
        ∧ (∃ u v, (execute_tool reg name kwargs).data = u ++ name.data ++ v)
        ∧ (∃ u v, (execute_tool reg name kwargs).data = u ++ e.msg.data ++ v)) := by
  refine ⟨?_, ?_, ?_⟩
  · intro h
    simp [execute_tool, h]
  · intro t r ht hr
    simp [execute_tool, ht, hr]
  · intro t e ht he
    have hmsg : execute_tool reg name kwargs = toolErrorMsg name e := by
      simp [execute_tool, ht, he]
    refine ⟨hmsg, ?_, ?_⟩
    · refine ⟨("❌ Błąd wykonania narzędzia " ++ apos).data,
        (apos ++ ": " ++ e.msg).data, ?_⟩
      rw [hmsg]
      simp [toolErrorMsg, List.append_assoc]
    · refine ⟨("❌ Błąd wykonania narzędzia " ++ apos ++ name ++ apos ++ ": ").data,
        [], ?_⟩
      rw [hmsg]
      simp [toolErrorMsg, List.append_assoc]

/-- A two-entry registry with a throwing handler and a normal one. -/
def demoRegistry : List ToolEntry :=
  [⟨"boom", "always throws", fun _ => .error ⟨"kaboom"⟩⟩,
   ⟨"echo", "returns a fixed string", fun _ => .ok "fine"⟩]

/-- Closed instance of C1: a missing name gives the not-found message, a
throwing handler gives the formatted error string, a normal handler's
result is passed through. -/
theorem execute_tool_isolation_witness :
    execute_tool demoRegistry "nonexistent_tool" [] = toolNotFoundMsg "nonexistent_tool"
    ∧ execute_tool demoRegistry "boom" [] = toolErrorMsg "boom" ⟨"kaboom"⟩
    ∧ execute_tool demoRegistry "echo" [] = "fine" := by
  refine ⟨?_, ?_, ?_⟩
  · exact (execute_tool_isolation demoRegistry "nonexistent_tool" []).1 rfl
  · exact ((execute_tool_isolation demoRegistry "boom" []).2.2
      ⟨"boom", "always throws", fun _ => .error ⟨"kaboom"⟩⟩ ⟨"kaboom"⟩ rfl rfl).1
  · exact (execute_tool_isolation demoRegistry "echo" []).2.1
      ⟨"echo", "returns a fixed string", fun _ => .ok "fine"⟩ "fine" rfl rfl

/-! ## Claim theorems: `_write_file` -/

/-- C3: whatever the requested path — directory components included —
the only path `_write_file` ever opens is the basename of the request
joined under the configured sandbox directory (default
`./mcp_workspace`); the basename contains no separator, so the write
cannot escape the sandbox root, and in the degenerate error case
nothing is written at all. -/
theorem write_file_confined (envSafeDir : Option String) (path content : String) :
    (∀ w, write_file envSafeDir path content = .ok w →
      w.dir = mcpSafeDir envSafeDir
      ∧ (∀ c ∈ (osPathBasename path).data, c ≠ '/')
      ∧ w.target = (if strEndsSlash (mcpSafeDir envSafeDir) = true then
            mcpSafeDir envSafeDir ++ osPathBasename path
          else mcpSafeDir envSafeDir ++ "/" ++ osPathBasename path)
      ∧ w.content = content)
    ∧ (∀ msg, write_file envSafeDir path content = .error msg →
        mcpSafeDir envSafeDir = "") := by
  have hbase : ∀ c ∈ (osPathBasename path).data, c ≠ '/' := by
    intro c hc
    simp only [osPathBasename] at hc
    rw [List.mem_reverse] at hc
    have := List.mem_takeWhile_imp hc
    simpa using this
  have hnoslash : listStarts ['/'] (osPathBasename path).data = false := by
    cases hb : (osPathBasename path).data with
    | nil => rfl
    | cons c cs =>
      have hcne : c ≠ '/' := hbase c (by rw [hb]; simp)
      have hb2 : (('/' : Char) == c) = false := by
        simp only [beq_eq_false_iff_ne]
        exact fun h => hcne h.symm
      simp [listStarts, hb2]
  constructor
  · intro w hw
    by_cases hsd : mcpSafeDir envSafeDir = ""
    · rw [write_file, if_pos (by simpa using hsd)] at hw
      exact absurd hw (by simp)
    · rw [write_file, if_neg (by simpa using hsd)] at hw
      simp only [Except.ok.injEq] at hw
      subst hw
      refine ⟨rfl, hbase, ?_, rfl⟩
      show osPathJoin (mcpSafeDir envSafeDir) (osPathBasename path) = _
      rw [osPathJoin, if_neg (by simp [hnoslash])]
      cases hend : strEndsSlash (mcpSafeDir envSafeDir) with
      | true => simp
      | false => simp [hsd]
  · intro msg hmsg
    by_cases hsd : mcpSafeDir envSafeDir = ""
    · exact hsd
    · rw [write_file, if_neg (by simpa using hsd)] at hmsg
      exact absurd hmsg (by simp)

/-- Closed instance of C3: the spec's `"../../etc/passwd"` example —
stripped to basename `passwd`, written only under `./mcp_workspace`. -/
theorem write_file_confined_witness :
    osPathBasename "../../etc/passwd" = "passwd"
    ∧ (∀ c ∈ (osPathBasename "../../etc/passwd").data, c ≠ '/')
    ∧ write_file none "../../etc/passwd" "data"
        = .ok ⟨"./mcp_workspace", "./mcp_workspace/passwd", "data"⟩
    ∧ ("./mcp_workspace/passwd" : String)
        = "./mcp_workspace" ++ "/" ++ osPathBasename "../../etc/passwd" := by
  refine ⟨by decide, ?_, rfl, by decide⟩
  exact ((write_file_confined none "../../etc/passwd" "data").1
    ⟨"./mcp_workspace", "./mcp_workspace/passwd", "data"⟩ rfl).2.1

/-! ## Claim theorems: `_calculator` -/

/-- C4: any expression holding a character outside digits, Python
whitespace and `+-*/().^ ` is rejected with the fixed message before
any evaluation (so the `__import__` probe is rejected); validated
expressions have `^` mapped to `**` and are evaluated, `2^3` giving 8
— and a Python-whitespace character such as form feed passes the
validation and is skipped by the evaluation, `"2+\x0c2"` giving 4. -/
theorem calculator_validation :
    (∀ expression : String,
      (∃ c ∈ expression.data, calcCharOk c = false) →
      calculator expression = "❌ Niedozwolone znaki w wyrażeniu")
    ∧ calculator ("__import__(" ++ apos ++ "os" ++ apos ++ ")")
        = "❌ Niedozwolone znaki w wyrażeniu"
    ∧ calculator "2^3" = "🔢 2**3 = 8"
    ∧ calculator ("2+" ++ ⟨[Char.ofNat 12]⟩ ++ "2")
        = "🔢 2+" ++ ⟨[Char.ofNat 12]⟩ ++ "2 = 4" := by
  refine ⟨?_, by decide, by decide, by decide⟩
  rintro e ⟨c, hc, hbad⟩
  have hall : e.data.all calcCharOk = false := by
    rw [List.all_eq_false]
    exact ⟨c, hc, by simp [hbad]⟩
  simp [calculator, hall]

/-- Closed instance of C4: a lettered expression is rejected, the caret
example evaluates, and a form feed is treated as whitespace. -/
theorem calculator_validation_witness :
    calculator "a+1" = "❌ Niedozwolone znaki w wyrażeniu"
    ∧ calculator "2^3" = "🔢 2**3 = 8"
    ∧ calculator ("2+" ++ ⟨[Char.ofNat 12]⟩ ++ "2")
        = "🔢 2+" ++ ⟨[Char.ofNat 12]⟩ ++ "2 = 4" :=
  ⟨calculator_validation.1 "a+1" ⟨'a', by decide, by decide⟩,
   calculator_validation.2.2.1, calculator_validation.2.2.2⟩

/-! ## Claim theorems: the research client -/

/-- An ISO date string carrying a UTC offset: the code's
`replace("Z", "+00:00")` guarantees that an upstream `Z`-suffixed date
reaches `fromisoformat` in exactly this offset-bearing form, which
parses to a timezone-*aware* datetime. -/
def awareDateStr : String := "2020-01-01T00:00:00+00:00"

/-- A date parser oracle under which `awareDateStr` parses to an aware
datetime 300 days before the epoch of the model clock (Python:
`fromisoformat` on an offset-bearing string returns an aware value). -/
def parseDateAware : String → Option PyDate := fun s =>
  if s == awareDateStr then some (.aware (-300)) else none

/-- A date parser oracle returning a *naive* datetime at the same
instant, for contrast. -/
def parseDateNaive : String → Option PyDate := fun s =>
  if s == awareDateStr then some (.naive (-300)) else none

/-- An upstream result far older than any reasonable cutoff. -/
def staleResult : SearchResult :=
  ⟨some "https://old.example", none, none, some awareDateStr, none⟩

/-- C2 (evaluation at the failing input): on an HTTP 200 response whose
single result has a `published_date` that parses to a timezone-aware
datetime 300 days in the past, with `max_age_days = 120` (cutoff
`now − 120`), `search` KEEPS the stale result and reports
`filtered_by_date = false`: the aware-vs-naive comparison raises
`TypeError`, which the bare `except:` converts into keeping the result.
Under a naive parse of the same instant the result is excluded — the
documented filtering intent — so the claim's "older results are
excluded" fails precisely on aware (offset/`Z`-carrying) dates. -/
theorem search_date_filter_aware_kept :
    (search "k" parseDateAware 0 (.ok ⟨200, [staleResult], none, "", 0⟩)
        "q" 120 10).results = [staleResult]
    ∧ (search "k" parseDateAware 0 (.ok ⟨200, [staleResult], none, "", 0⟩)
        "q" 120 10).filtered_by_date = some false
    ∧ parseDateAware awareDateStr = some (.aware (-300))
    ∧ pyDateGE (.aware (-300)) (.naive (0 - 120)) = none
    ∧ ((-300 : Int) < 0 - 120)
    ∧ (search "k" parseDateNaive 0 (.ok ⟨200, [staleResult], none, "", 0⟩)
        "q" 120 10).results = []
    ∧ (search "k" parseDateNaive 0 (.ok ⟨200, [staleResult], none, "", 0⟩)
        "q" 120 10).filtered_by_date = some true := by
  refine ⟨by decide, by decide, by decide, rfl, by decide, by decide, by decide⟩

/-- C8 (counterexample): the mock payload embeds the clock — its
synthetic result's `published_date` is `now − 7 days` — so two calls
with identical arguments at different instants yield unequal payloads;
the claim's "repeated calls with the same arguments produce equal
payloads" fails. -/
theorem mock_search_not_reproducible :
    search "" parseDateAware 0 (.error "") "x" 120 10
      ≠ search "" parseDateAware 1 (.error "") "x" 120 10 := by decide

/-- C8 (amended): with no credential configured, `search` ignores the
HTTP oracle and the date parser entirely (no network call), returns the
success-shaped mock response tagged `mock = true` with exactly one
synthetic result, and the payload is a non-random function of the
query, `max_age_days` and the clock instant alone — reproducible at a
fixed instant, though not across instants. -/
theorem mock_search_no_credential (parseDate parseDate' : String → Option PyDate)
    (now : Int) (http http' : Except String HttpResp) (query : String)
    (max_age_days : Int) (num_results num_results' : Nat) :
    (search "" parseDate now http query max_age_days num_results).success = true
    ∧ (search "" parseDate now http query max_age_days num_results).mock = true
    ∧ (search "" parseDate now http query max_age_days num_results).results.length = 1
    ∧ search "" parseDate now http query max_age_days num_results
        = search "" parseDate' now http' query max_age_days num_results'
    ∧ search "" parseDate now http query max_age_days num_results
        = mock_search now query max_age_days :=
  ⟨rfl, rfl, rfl, rfl, rfl⟩

/-! ### Deduplication lemmas for `deep_research` -/

theorem contains_append_or (l₁ l₂ : List String) (a : String) :
    (l₁ ++ l₂).contains a = (l₁.contains a || l₂.contains a) := by
  simp [List.contains, List.elem_eq_mem, List.mem_append, Bool.decide_or]

theorem dedupByUrl_sublist : ∀ l : List SearchResult, ∀ seen : List String,
    (dedupByUrl seen l).Sublist l := by
  intro l
  induction l with
  | nil => intro seen; simp [dedupByUrl]
  | cons r rs ih =>
    intro seen
    cases hu : r.url with
    | none =>
      simp only [dedupByUrl, hu]
      exact (ih seen).cons r
    | some u =>
      simp only [dedupByUrl, hu]
      by_cases hc : (!(u == "") && !(seen.contains u)) = true
      · rw [if_pos hc]
        exact (ih (seen ++ [u])).cons₂ r
      · rw [if_neg hc]
        exact (ih seen).cons r

theorem dedupByUrl_mem_url : ∀ l : List SearchResult, ∀ seen : List String,
    ∀ r ∈ dedupByUrl seen l,
      ∃ u, r.url = some u ∧ u ≠ "" ∧ seen.contains u = false := by
  intro l
  induction l with
  | nil => intro seen r hr; simp [dedupByUrl] at hr
  | cons r0 rs ih =>
    intro seen r hr
    cases hu : r0.url with
    | none =>
      simp only [dedupByUrl, hu] at hr
      exact ih seen r hr
    | some u =>
      simp only [dedupByUrl, hu] at hr
      by_cases hc : (!(u == "") && !(seen.contains u)) = true
      · rw [if_pos hc] at hr
        have hc2 : u ≠ "" ∧ seen.contains u = false := by
          simpa [Bool.and_eq_true, Bool.not_eq_true'] using hc
        rcases List.mem_cons.mp hr with hr0 | hrtail
        · subst hr0
          exact ⟨u, hu, hc2.1, hc2.2⟩
        · obtain ⟨u', hu', hne', hcont'⟩ := ih (seen ++ [u]) r hrtail
          refine ⟨u', hu', hne', ?_⟩
          cases hcs : seen.contains u' with
          | false => rfl
          | true =>
            exfalso
            have hcat : (seen ++ [u]).contains u' = true := by
              rw [contains_append_or, hcs]
              rfl
            rw [hcat] at hcont'
            exact Bool.noConfusion hcont'
      · rw [if_neg hc] at hr
        exact ih seen r hr

theorem dedupByUrl_pairwise : ∀ l : List SearchResult, ∀ seen : List String,
    (dedupByUrl seen l).Pairwise (fun a b => a.url ≠ b.url) := by
  intro l
  induction l with
  | nil => intro seen; simp [dedupByUrl]
  | cons r0 rs ih =>
    intro seen
    cases hu : r0.url with
    | none =>
      simp only [dedupByUrl, hu]
      exact ih seen
    | some u =>
      simp only [dedupByUrl, hu]
      by_cases hc : (!(u == "") && !(seen.contains u)) = true
      · rw [if_pos hc]
        refine List.Pairwise.cons ?_ (ih (seen ++ [u]))
        intro b hb
        obtain ⟨u', hu', _, hcont'⟩ := dedupByUrl_mem_url rs (seen ++ [u]) b hb
        rw [hu, hu']
        intro heq
        have huu : u = u' := by simpa using heq
        subst huu
        have hcat : (seen ++ [u]).contains u = true := by
          rw [contains_append_or]
          have h1 : List.contains [u] u = true := by simp [List.contains, List.elem_eq_mem]
          rw [h1, Bool.or_true]
        rw [hcat] at hcont'
        exact Bool.noConfusion hcont'
      · rw [if_neg hc]
        exact ih seen

theorem dedupByUrl_keeps_first : ∀ l : List SearchResult, ∀ seen : List String,
    ∀ u r, u ≠ "" → seen.contains u = false →
    l.find? (fun x => x.url == some u) = some r → r ∈ dedupByUrl seen l := by
  intro l
  induction l with
  | nil => intro seen u r _ _ hf; simp at hf
  | cons r0 rs ih =>
    intro seen u r hne hseen hf
    by_cases hp : (r0.url == some u) = true
    · rw [List.find?_cons_of_pos rs
        (show (fun x => x.url == some u) r0 = true from hp)] at hf
      simp only [Option.some.injEq] at hf
      subst hf
      have hu : r0.url = some u := by simpa using hp
      have hc : (!(u == "") && !(seen.contains u)) = true := by
        rw [hseen]
        simp [hne]
      simp only [dedupByUrl, hu]
      rw [if_pos hc]
      exact List.mem_cons_self r0 _
    · rw [List.find?_cons_of_neg rs
        (show ¬(fun x => x.url == some u) r0 = true from hp)] at hf
      have hnequrl : r0.url ≠ some u := by simpa using hp
      cases hu0 : r0.url with
      | none =>
        simp only [dedupByUrl, hu0]
        exact ih seen u r hne hseen hf
      | some u0 =>
        simp only [dedupByUrl, hu0]
        by_cases hc0 : (!(u0 == "") && !(seen.contains u0)) = true
        · rw [if_pos hc0]
          refine List.mem_cons_of_mem r0 ?_
          refine ih (seen ++ [u0]) u r hne ?_ hf
          have hu0ne : u0 ≠ u := by
            intro h
            exact hnequrl (by rw [hu0, h])
          rw [contains_append_or, hseen]
          have h1 : List.contains [u0] u = false := by
            simp [List.contains, List.elem_eq_mem]
            exact fun h => hu0ne h.symm
          rw [h1]
          rfl
        · rw [if_neg hc0]
          exact ih seen u r hne hseen hf

/-- C9: `deep_research` takes the results of `search` called with
`num_results = 10` (only on success), removes URL duplicates keeping
the first occurrence of each URL with order preserved (a sublist of the
accumulated results with pairwise-distinct URLs), and returns at most
15 results. -/
theorem deep_research_dedup (api_key : String)
    (parseDate : String → Option PyDate) (now : Int)
    (http : Except String HttpResp) (query : String) (max_age_days : Int) :
    let tav := search api_key parseDate now http query max_age_days 10
    let acc := if tav.success = true then tav.results else []
    let out := deep_research api_key parseDate now http query ["tavily"] max_age_days
    out.results = (dedupByUrl [] acc).take 15
    ∧ out.results.length ≤ 15
    ∧ out.results.Sublist acc
    ∧ out.results.Pairwise (fun a b => a.url ≠ b.url)
    ∧ (∀ u r, u ≠ "" → acc.find? (fun x => x.url == some u) = some r →
        r ∈ dedupByUrl [] acc) := by
  intro tav acc out
  have h1 : out.results = (dedupByUrl [] acc).take 15 := rfl
  refine ⟨h1, ?_, ?_, ?_, ?_⟩
  · rw [h1]
    exact List.length_take_le 15 _
  · rw [h1]
    exact (List.take_sublist _ _).trans (dedupByUrl_sublist acc [])
  · rw [h1]
    exact List.Pairwise.sublist (List.take_sublist _ _) (dedupByUrl_pairwise acc [])
  · intro u r hne hf
    exact dedupByUrl_keeps_first acc [] u r hne rfl hf

/-- Upstream results with a duplicated URL, for the C9 witness. -/
def dupResultA : SearchResult := ⟨some "https://a.example", none, none, none, none⟩

/-- A second result sharing `dupResultA`'s URL. -/
def dupResultA2 : SearchResult :=
  ⟨some "https://a.example", some "dup", none, none, none⟩

/-- A result with a distinct URL. -/
def dupResultB : SearchResult := ⟨some "https://b.example", none, none, none, none⟩

/-- A 200 response carrying a duplicate URL. -/
def dupHttp : Except String HttpResp :=
  .ok ⟨200, [dupResultA, dupResultA2, dupResultB], none, "", 0⟩

/-- Closed instance of C9: the duplicate of `https://a.example` is
dropped, the first occurrence and the other URL survive in order. -/
theorem deep_research_dedup_witness :
    (deep_research "k" parseDateAware 0 dupHttp "q" ["tavily"] 120).results
      = [dupResultA, dupResultB]
    ∧ dupResultA ∈ dedupByUrl []
        (if (search "k" parseDateAware 0 dupHttp "q" 120 10).success = true
          then (search "k" parseDateAware 0 dupHttp "q" 120 10).results else []) := by
  constructor
  · decide
  · exact (deep_research_dedup "k" parseDateAware 0 dupHttp "q" 120).2.2.2.2
      "https://a.example" dupResultA (by decide) (by decide)

/-- C10: `deep_research` always reports success, even when the
underlying `search` fails — the failure is dropped and the response is
success-shaped with an empty result list. -/
theorem deep_research_always_success (api_key : String)
    (parseDate : String → Option PyDate) (now : Int)
    (http : Except String HttpResp) (query : String)
    (sources : List String) (max_age_days : Int) :
    (deep_research api_key parseDate now http query sources max_age_days).success = true
    ∧ ((search api_key parseDate now http query max_age_days 10).success = false →
        (deep_research api_key parseDate now http query ["tavily"] max_age_days).results = []
        ∧ (deep_research api_key parseDate now http query ["tavily"]
            max_age_days).total_unique = 0) := by
  constructor
  · rfl
  · intro hfail
    have hacc : (if (search api_key parseDate now http query max_age_days 10).success = true
        then (search api_key parseDate now http query max_age_days 10).results else [])
        = [] := by
      simp [hfail]
    constructor
    · have h1 : (deep_research api_key parseDate now http query ["tavily"]
          max_age_days).results
          = (dedupByUrl [] (if (search api_key parseDate now http query
              max_age_days 10).success = true
            then (search api_key parseDate now http query max_age_days 10).results
            else [])).take 15 := rfl
      rw [h1, hacc]
      rfl
    · have h2 : (deep_research api_key parseDate now http query ["tavily"]
          max_age_days).total_unique
          = (dedupByUrl [] (if (search api_key parseDate now http query
              max_age_days 10).success = true
            then (search api_key parseDate now http query max_age_days 10).results
            else [])).length := rfl
      rw [h2, hacc]
      rfl

/-- A failing upstream response (HTTP 500). -/
def failHttp : Except String HttpResp := .ok ⟨500, [], none, "server error", 0⟩

/-- Closed instance of C10: with a 500 from upstream, `search` is
failure-shaped yet `deep_research` reports success with no results. -/
theorem deep_research_always_success_witness :
    (search "k" parseDateAware 0 failHttp "q" 120 10).success = false
    ∧ (deep_research "k" parseDateAware 0 failHttp "q" ["tavily"] 120).success = true
    ∧ (deep_research "k" parseDateAware 0 failHttp "q" ["tavily"] 120).results = [] := by
  refine ⟨by decide,
    (deep_research_always_success "k" parseDateAware 0 failHttp "q" ["tavily"] 120).1,
    ((deep_research_always_success "k" parseDateAware 0 failHttp "q" ["tavily"]
      120).2 (by decide)).1⟩

end GraphStos
